import Mathlib

/-!
# Verification of the maintenance-checklist front-end

Shallow embedding of the two source components:

* `ChecklistViewer` (rendering, search filtering, per-item checked state),
* `Index` (selection, generate, copy-JSON handlers),

together with proofs of the specification's claims about them.

JavaScript strings are modelled as Lean `String`s (lists of characters),
JS objects with string keys as association lists in insertion order, and
the React component state as explicit fields of an `AppState` record.
-/

namespace Checklist

/-! ## Strings: lower-casing and substring containment

`item.toLowerCase()` is modelled per-character (ASCII case folding, which is
what the checklist data exercises), and `a.includes(b)` as the list-infix
test on the character data. -/

/-- Model of JS `String.prototype.toLowerCase` (ASCII range). -/
def toLowerStr (s : String) : String := ⟨s.data.map Char.toLower⟩

/-- Does `pat` match at the head of `l`? (Boolean prefix test.) -/
def matchesAt : List Char → List Char → Bool
  | [], _ => true
  | _ :: _, [] => false
  | a :: as, b :: bs => a == b && matchesAt as bs

/-- Does `pat` occur contiguously anywhere in `l`? (Boolean infix test.) -/
def containsSub (pat : List Char) : List Char → Bool
  | [] => pat.isEmpty
  | c :: rest => matchesAt pat (c :: rest) || containsSub pat rest

/-- Model of JS `a.includes(b)`: `b` occurs as a contiguous substring of `a`. -/
def strIncludes (a b : String) : Bool := containsSub b.data a.data

theorem matchesAt_iff (p : List Char) : ∀ l, matchesAt p l = true ↔ p <+: l := by
  induction p with
  | nil =>
      intro l
      simp only [matchesAt, true_iff]
      exact List.nil_prefix
  | cons a as ih =>
      intro l
      cases l with
      | nil =>
          simp only [matchesAt, Bool.false_eq_true, false_iff]
          intro h
          obtain ⟨t, ht⟩ := h
          simp at ht
      | cons b bs =>
          simp [matchesAt, List.cons_prefix_cons, ih bs, And.comm]

theorem containsSub_iff (p : List Char) : ∀ l, containsSub p l = true ↔ p <:+: l := by
  intro l
  induction l with
  | nil => simp [containsSub, List.isEmpty_iff, List.infix_nil]
  | cons c rest ih =>
      simp [containsSub, matchesAt_iff, ih, List.infix_cons_iff]

/-! ## Data model

`ChecklistData` mirrors the TypeScript interface of the same name; the
`sections` object (string keys to arrays of item strings) is an association
list in the object's insertion order, with unique keys. -/

structure ChecklistData where
  id : String
  title : String
  equipment : String
  industry : String
  frequency : String
  estimatedTime : String
  version : String
  lastUpdated : String
  sections : List (String × List String)
deriving DecidableEq, Repr

/-- JS object property lookup `obj[key]` on an association list
(first matching key wins; objects have unique keys). -/
def assocGet {α : Type} (l : List (String × α)) (key : String) : Option α :=
  match l with
  | [] => none
  | (k, v) :: rest => if k = key then some v else assocGet rest key

/-- JS object spread-update `{...prev, [key]: v}`: an existing key keeps its
position with the new value, a new key is appended. -/
def assocSet {α : Type} (l : List (String × α)) (key : String) (v : α) :
    List (String × α) :=
  match l with
  | [] => [(key, v)]
  | (k, w) :: rest => if k = key then (k, v) :: rest else (k, w) :: assocSet rest key v

/-! ## Decimal rendering of the item index

The template literal `` `${sectionName}-${itemIndex}` `` renders the index
with the JS ToString of a non-negative integer: base-10 digits. -/

def digitChar (n : Nat) : Char :=
  if n = 0 then '0' else if n = 1 then '1' else if n = 2 then '2'
  else if n = 3 then '3' else if n = 4 then '4' else if n = 5 then '5'
  else if n = 6 then '6' else if n = 7 then '7' else if n = 8 then '8' else '9'

def natDigitsAux : Nat → Nat → List Char
  | 0, _ => []
  | fuel + 1, n =>
      if n < 10 then [digitChar n]
      else natDigitsAux fuel (n / 10) ++ [digitChar (n % 10)]

def natToString (n : Nat) : String := ⟨natDigitsAux (n + 1) n⟩

theorem digitChar_ne_dash (n : Nat) : digitChar n ≠ '-' := by
  unfold digitChar
  repeat' split
  all_goals decide

theorem digitChar_toNat (n : Nat) (h : n < 10) : (digitChar n).toNat = 48 + n := by
  interval_cases n <;> decide

theorem natDigitsAux_ne_dash (fuel n : Nat) : '-' ∉ natDigitsAux fuel n := by
  induction fuel generalizing n with
  | zero => simp [natDigitsAux]
  | succ fuel ih =>
      simp only [natDigitsAux]
      split
      · simp
        exact fun h => digitChar_ne_dash n h.symm
      · simp
        refine ⟨fun h => ih _ h, fun h => digitChar_ne_dash _ h.symm⟩

theorem natDigitsAux_foldl (fuel : Nat) : ∀ n acc, n < fuel →
    (natDigitsAux fuel n).foldl (fun a c => a * 10 + (c.toNat - 48)) acc
      = acc * 10 ^ (natDigitsAux fuel n).length + n := by
  induction fuel with
  | zero => intro n acc h; omega
  | succ fuel ih =>
      intro n acc h
      simp only [natDigitsAux]
      split
      · rename_i h10
        simp [List.foldl, digitChar_toNat n h10]
      · rename_i h10
        push_neg at h10
        have hdiv : n / 10 < n := Nat.div_lt_self (by omega) (by omega)
        rw [List.foldl_append]
        rw [ih (n / 10) acc (by omega)]
        simp only [List.foldl_cons, List.foldl_nil, List.length_append,
          List.length_cons, List.length_nil]
        rw [digitChar_toNat (n % 10) (Nat.mod_lt n (by omega))]
        have h48 : 48 + n % 10 - 48 = n % 10 := by omega
        rw [h48]
        have key : ∀ A : Nat, (A + n / 10) * 10 + n % 10 = A * 10 + n := by
          intro A; omega
        rw [key (acc * 10 ^ (natDigitsAux fuel (n / 10)).length), pow_succ]
        ring

theorem natToString_ne_dash (n : Nat) : '-' ∉ (natToString n).data := by
  exact natDigitsAux_ne_dash (n + 1) n

theorem natToString_inj {m n : Nat} (h : natToString m = natToString n) : m = n := by
  have hd : natDigitsAux (m + 1) m = natDigitsAux (n + 1) n := congrArg String.data h
  have hm := natDigitsAux_foldl (m + 1) m 0 (Nat.lt_succ_self m)
  have hn := natDigitsAux_foldl (n + 1) n 0 (Nat.lt_succ_self n)
  rw [hd] at hm
  simp at hm hn
  omega

theorem string_eq_of_data_eq {s t : String} (h : s.data = t.data) : s = t := by
  cases s; cases t; exact congrArg String.mk h

/-- Splitting a string at a separator character that cannot occur in the
suffix: `a₁ ++ '-' :: b₁ = a₂ ++ '-' :: b₂` with dash-free `b₁, b₂` forces
`a₁ = a₂` and `b₁ = b₂`. -/
theorem append_dash_inj : ∀ (a₁ : List Char) {b₁ : List Char} (a₂ : List Char)
    {b₂ : List Char}, '-' ∉ b₁ → '-' ∉ b₂ →
    a₁ ++ '-' :: b₁ = a₂ ++ '-' :: b₂ → a₁ = a₂ ∧ b₁ = b₂ := by
  intro a₁
  induction a₁ with
  | nil =>
      intro b₁ a₂ b₂ hb₁ _hb₂ h
      cases a₂ with
      | nil => simpa using h
      | cons c a₂' =>
          simp at h
          exfalso
          exact hb₁ (h.2 ▸ List.mem_append_right a₂' (List.mem_cons_self '-' b₂))
  | cons c a₁' ih =>
      intro b₁ a₂ b₂ hb₁ hb₂ h
      cases a₂ with
      | nil =>
          simp at h
          exfalso
          exact hb₂ (h.2.symm ▸ List.mem_append_right a₁' (List.mem_cons_self '-' b₁))
      | cons d a₂' =>
          simp at h
          obtain ⟨hcd, hrest⟩ := h
          obtain ⟨h1, h2⟩ := ih a₂' hb₁ hb₂ hrest
          exact ⟨by rw [hcd, h1], h2⟩

/-! ## `handleItemCheck` and the checked-state map (ChecklistViewer lines 26–36)

```js
const [checkedItems, setCheckedItems] = useState({});
const handleItemCheck = (sectionName, itemIndex) => {
  const key = `${sectionName}-${itemIndex}`;
  setCheckedItems(prev => ({ ...prev, [key]: !prev[key] }));
};
```
A key absent from the object reads as `undefined`, which is falsy, so
`!prev[key]` is `true` for an absent key and `checkedItems[key] || false`
reads `false`. -/

abbrev CheckedMap := List (String × Bool)

def itemKey (sectionName : String) (itemIndex : Nat) : String :=
  sectionName ++ "-" ++ natToString itemIndex

def handleItemCheck (m : CheckedMap) (sectionName : String) (itemIndex : Nat) :
    CheckedMap :=
  let key := itemKey sectionName itemIndex
  assocSet m key (!((assocGet m key).getD false))

/-- The render-time read `checkedItems[key] || false` (line 127). -/
def readChecked (m : CheckedMap) (sectionName : String) (itemIndex : Nat) : Bool :=
  (assocGet m (itemKey sectionName itemIndex)).getD false

theorem itemKey_data (s : String) (i : Nat) :
    (itemKey s i).data = s.data ++ '-' :: (natToString i).data := by
  simp [itemKey]

theorem itemKey_inj {s₁ s₂ : String} {i₁ i₂ : Nat}
    (h : itemKey s₁ i₁ = itemKey s₂ i₂) : s₁ = s₂ ∧ i₁ = i₂ := by
  have hd : (itemKey s₁ i₁).data = (itemKey s₂ i₂).data := congrArg String.data h
  rw [itemKey_data, itemKey_data] at hd
  obtain ⟨h1, h2⟩ := append_dash_inj s₁.data s₂.data
    (natToString_ne_dash i₁) (natToString_ne_dash i₂) hd
  exact ⟨string_eq_of_data_eq h1, natToString_inj (string_eq_of_data_eq h2)⟩

theorem assocGet_assocSet_self {α : Type} (l : List (String × α)) (k : String) (v : α) :
    assocGet (assocSet l k v) k = some v := by
  induction l with
  | nil => simp [assocSet, assocGet]
  | cons p rest ih =>
      obtain ⟨k', w⟩ := p
      by_cases hk : k' = k
      · subst hk; simp [assocSet, assocGet]
      · simp [assocSet, assocGet, hk, ih]

theorem assocGet_assocSet_other {α : Type} (l : List (String × α)) {k k' : String}
    (v : α) (h : k' ≠ k) : assocGet (assocSet l k v) k' = assocGet l k' := by
  have hne : ¬ k = k' := fun e => h e.symm
  induction l with
  | nil => simp [assocSet, assocGet, hne]
  | cons p rest ih =>
      obtain ⟨k'', w⟩ := p
      by_cases hk : k'' = k
      · subst hk; simp [assocSet, assocGet, hne]
      · simp [assocSet, assocGet, hk, ih]

theorem readChecked_handleItemCheck_self (m : CheckedMap) (s : String) (i : Nat) :
    readChecked (handleItemCheck m s i) s i = !(readChecked m s i) := by
  simp [readChecked, handleItemCheck, assocGet_assocSet_self]

theorem readChecked_handleItemCheck_other (m : CheckedMap) {s s' : String}
    {i i' : Nat} (h : itemKey s' i' ≠ itemKey s i) :
    readChecked (handleItemCheck m s i) s' i' = readChecked m s' i' := by
  simp [readChecked, handleItemCheck, assocGet_assocSet_other _ _ h]

/-- C8: Toggling the same `(section, index)` twice restores the
observable checked state of every key, and toggling one item leaves the
observable state of every other `(section, index)` pair unchanged. -/
theorem C8_toggle_double_and_independent (m : CheckedMap) (s : String) (i : Nat)
    (s' : String) (i' : Nat) :
    readChecked (handleItemCheck (handleItemCheck m s i) s i) s' i'
        = readChecked m s' i'
    ∧ (s ≠ s' ∨ i ≠ i' →
        readChecked (handleItemCheck m s i) s' i' = readChecked m s' i') := by
  have hother : s ≠ s' ∨ i ≠ i' →
      itemKey s' i' ≠ itemKey s i := by
    intro hne he
    obtain ⟨h1, h2⟩ := itemKey_inj he
    rcases hne with h | h
    · exact h h1.symm
    · exact h h2.symm
  constructor
  · by_cases hk : itemKey s' i' = itemKey s i
    · obtain ⟨hs, hi⟩ := itemKey_inj hk
      subst hs; subst hi
      rw [readChecked_handleItemCheck_self, readChecked_handleItemCheck_self,
        Bool.not_not]
    · rw [readChecked_handleItemCheck_other _ hk, readChecked_handleItemCheck_other _ hk]
  · intro hne
    exact readChecked_handleItemCheck_other _ (hother hne)

/-- Witness for C8: in the empty map, double-toggling item 0 of
"Safety Precautions" leaves both it and item 1 reading unchecked, and a
single toggle of item 0 leaves item 1 unchanged. -/
theorem C8_toggle_double_and_independent_witness :
    readChecked (handleItemCheck (handleItemCheck [] "Safety Precautions" 0)
        "Safety Precautions" 0) "Safety Precautions" 1
      = readChecked [] "Safety Precautions" 1
    ∧ readChecked (handleItemCheck [] "Safety Precautions" 0) "Safety Precautions" 1
      = readChecked [] "Safety Precautions" 1 := by
  have h := C8_toggle_double_and_independent [] "Safety Precautions" 0
    "Safety Precautions" 1
  exact ⟨h.1, h.2 (Or.inr (by decide))⟩

/-! ## `filterItems` (ChecklistViewer lines 38–43)

```js
const filterItems = (items) => {
  if (!searchQuery) return items;
  return items.filter(item =>
    item.toLowerCase().includes(searchQuery.toLowerCase())
  );
};
```
An empty string is the only falsy JS string. -/

def filterItems (searchQuery : String) (items : List String) : List String :=
  if searchQuery = "" then items
  else items.filter (fun item => strIncludes (toLowerStr item) (toLowerStr searchQuery))

theorem strIncludes_iff (a b : String) : strIncludes a b = true ↔ b.data <:+: a.data :=
  containsSub_iff b.data a.data

theorem strIncludes_empty (a : String) : strIncludes a "" = true :=
  (strIncludes_iff a "").mpr ⟨[], a.data, by simp⟩

theorem filterItems_sublist (q : String) (items : List String) :
    (filterItems q items).Sublist items := by
  unfold filterItems
  split
  · exact List.Sublist.refl items
  · exact List.filter_sublist items

theorem mem_filterItems (q : String) (items : List String) (item : String) :
    item ∈ filterItems q items ↔
      item ∈ items ∧ (toLowerStr q).data <:+: (toLowerStr item).data := by
  unfold filterItems
  split
  · subst q
    simp [toLowerStr]
  · simp [List.mem_filter, strIncludes_iff]

/-- C1: Filtering keeps exactly the items whose lower-cased text contains
the lower-cased search string as a substring, preserving their order (the
result is a sublist of the input); with the empty search string it returns
the item list unchanged. -/
theorem C1_filterItems_spec (q : String) (items : List String) :
    (∀ item, item ∈ filterItems q items ↔
        item ∈ items ∧ (toLowerStr q).data <:+: (toLowerStr item).data)
    ∧ (filterItems q items).Sublist items
    ∧ (q = "" → filterItems q items = items) := by
  refine ⟨fun item => mem_filterItems q items item, filterItems_sublist q items, ?_⟩
  intro h
  simp [filterItems, h]

/-- Witness for C1 at a concrete input: searching "pres" in a two-item list
keeps exactly the matching item, and the empty query keeps everything. -/
theorem C1_filterItems_spec_witness :
    ("Check PRESSURE gauge" ∈ filterItems "pres" ["Check PRESSURE gauge", "Oil level"]
      ↔ "Check PRESSURE gauge" ∈ ["Check PRESSURE gauge", "Oil level"]
        ∧ (toLowerStr "pres").data <:+: (toLowerStr "Check PRESSURE gauge").data)
    ∧ (filterItems "" ["Check PRESSURE gauge", "Oil level"]
        = ["Check PRESSURE gauge", "Oil level"]) := by
  exact ⟨(C1_filterItems_spec "pres" ["Check PRESSURE gauge", "Oil level"]).1 _,
    (C1_filterItems_spec "" ["Check PRESSURE gauge", "Oil level"]).2.2 rfl⟩

/-! ## Viewer rendering (ChecklistViewer lines 49–162)

`sectionOrder` is the fixed constant from lines 49–61.  The render loop
(lines 108–162) maps over `sectionOrder`, reads
`checklist.sections[sectionName] || []`, filters by the search query,
omits the section when `filteredItems.length === 0 && searchQuery`, maps
each filtered item to a checkbox row keyed `` `${sectionName}-${index}` ``
whose change handler calls `handleItemCheck(sectionName, index)`, and shows
the "No items in this section" notice when
`filteredItems.length === 0 && !searchQuery`. -/

def sectionOrder : List String :=
  ["Safety Precautions", "Required Tools and Equipment",
   "Pre-Maintenance Procedures", "Cleaning Procedures", "Mechanical Inspection",
   "Calibration", "Lubrication", "Quality Checks", "Documentation",
   "Final Checks", "Notes"]

/-- One checkbox row: its label text, DOM key, the arguments its change
handler passes to `handleItemCheck`, and the rendered checked flag. -/
structure RenderedItem where
  text : String
  key : String
  toggleSection : String
  toggleIndex : Nat
  checked : Bool
deriving DecidableEq, Repr

structure RenderedSection where
  name : String
  rows : List RenderedItem
  noItemsNotice : Bool
deriving DecidableEq, Repr

/-- `checklist.sections[sectionName] || []` (line 109). -/
def sectionItems (c : ChecklistData) (name : String) : List String :=
  (assocGet c.sections name).getD []

/-- The render of one entry of the `sectionOrder.map` loop: `none` when the
section is omitted by the guard on line 112. -/
def renderSection (c : ChecklistData) (q : String) (m : CheckedMap)
    (name : String) : Option RenderedSection :=
  if (filterItems q (sectionItems c name)).length = 0 ∧ q ≠ "" then none
  else some
    { name := name
      rows := (filterItems q (sectionItems c name)).enum.map (fun p =>
        { text := p.2
          key := itemKey name p.1
          toggleSection := name
          toggleIndex := p.1
          checked := readChecked m name p.1 })
      noItemsNotice :=
        decide ((filterItems q (sectionItems c name)).length = 0) && decide (q = "") }

/-- The full sections block: the loop over `sectionOrder` with omitted
sections dropped. -/
def renderSections (c : ChecklistData) (q : String) (m : CheckedMap) :
    List RenderedSection :=
  sectionOrder.filterMap (renderSection c q m)

/-- The user-visible item content: section names with their row texts, in
render order (checked flags projected away). -/
def displayedSections (c : ChecklistData) (q : String) (m : CheckedMap) :
    List (String × List String) :=
  (renderSections c q m).map (fun sec => (sec.name, sec.rows.map RenderedItem.text))

/-- A small concrete checklist used to witness the claims. -/
def demoChecklist : ChecklistData :=
  { id := "demo", title := "Demo Checklist", equipment := "Pump",
    industry := "Water", frequency := "Monthly", estimatedTime := "1h",
    version := "1.0", lastUpdated := "2024-01-15",
    sections := [("Safety Precautions", ["Alpha", "Beta"])] }

theorem renderSection_name {c : ChecklistData} {q : String} {m : CheckedMap}
    {name : String} {sec : RenderedSection}
    (h : renderSection c q m name = some sec) : sec.name = name := by
  unfold renderSection at h
  split at h
  · exact absurd h (by simp)
  · cases h; rfl

theorem renderSection_rows {c : ChecklistData} {q : String} {m : CheckedMap}
    {name : String} {sec : RenderedSection}
    (h : renderSection c q m name = some sec) :
    sec.rows = (filterItems q (sectionItems c name)).enum.map (fun p =>
      { text := p.2
        key := itemKey name p.1
        toggleSection := name
        toggleIndex := p.1
        checked := readChecked m name p.1 }) := by
  unfold renderSection at h
  split at h
  · exact absurd h (by simp)
  · cases h; rfl

theorem renderSection_isSome_empty_query (c : ChecklistData) (m : CheckedMap)
    (name : String) : (renderSection c "" m name).isSome = true := by
  unfold renderSection
  rw [if_neg]
  · rfl
  · intro h
    exact h.2 rfl

theorem map_name_filterMap (c : ChecklistData) (q : String) (m : CheckedMap) :
    ∀ names : List String,
      ((names.filterMap (renderSection c q m)).map RenderedSection.name)
        = names.filter (fun n => (renderSection c q m n).isSome) := by
  intro names
  induction names with
  | nil => rfl
  | cons n rest ih =>
      cases h : renderSection c q m n with
      | none => simp [List.filterMap_cons, h, List.filter_cons, ih]
      | some sec =>
          simp [List.filterMap_cons, h, List.filter_cons, ih, renderSection_name h]

theorem filterMap_ext {α β : Type} (l : List α) (f g : α → Option β)
    (h : ∀ a ∈ l, f a = g a) : l.filterMap f = l.filterMap g := by
  induction l with
  | nil => rfl
  | cons a rest ih =>
      simp only [List.filterMap_cons, h a (List.mem_cons_self a rest)]
      rw [ih (fun a ha => h a (List.mem_cons_of_mem _ ha))]

/-- Association-list lookup is invariant under permutation of the entries
when the keys are distinct. -/
theorem assocGet_perm {α : Type} {l₁ l₂ : List (String × α)}
    (hperm : l₁.Perm l₂) (k : String) :
    (l₁.map Prod.fst).Nodup → assocGet l₁ k = assocGet l₂ k := by
  induction hperm with
  | nil => intro _; rfl
  | cons x h ih =>
      intro hnd
      obtain ⟨kx, vx⟩ := x
      simp only [List.map_cons, List.nodup_cons] at hnd
      simp only [assocGet]
      split
      · rfl
      · exact ih hnd.2
  | swap x y l =>
      intro hnd
      obtain ⟨kx, vx⟩ := x
      obtain ⟨ky, vy⟩ := y
      simp only [List.map_cons, List.nodup_cons, List.mem_cons] at hnd
      by_cases hy : ky = k
      · by_cases hx : kx = k
        · exact absurd (hx.trans hy.symm) (fun e => hnd.1 (Or.inl e.symm))
        · simp [assocGet, hy, hx]
      · by_cases hx : kx = k
        · simp [assocGet, hy, hx]
        · simp [assocGet, hy, hx]
  | trans h₁ h₂ ih₁ ih₂ =>
      intro hnd
      have hnd₂ : _ := ((h₁.map Prod.fst).nodup_iff).mp hnd
      rw [ih₁ hnd, ih₂ hnd₂]

theorem renderSection_sections_congr {c₁ c₂ : ChecklistData} (q : String)
    (m : CheckedMap) (name : String)
    (h : assocGet c₁.sections name = assocGet c₂.sections name) :
    renderSection c₁ q m name = renderSection c₂ q m name := by
  unfold renderSection sectionItems
  rw [h]

/-- C9: With a non-empty search string a section with zero matching
items is omitted entirely; with the empty search string the section is
always rendered, carrying the "no items" notice exactly when its item
sequence is empty; and a section with matches under a non-empty search is
rendered without the notice. -/
theorem C9_section_visibility (c : ChecklistData) (q : String) (m : CheckedMap)
    (name : String) :
    (q ≠ "" ∧ filterItems q (sectionItems c name) = [] →
        renderSection c q m name = none)
    ∧ (q = "" → ∃ sec, renderSection c q m name = some sec
        ∧ (sec.noItemsNotice = true ↔ sectionItems c name = []))
    ∧ (q ≠ "" ∧ filterItems q (sectionItems c name) ≠ [] →
        ∃ sec, renderSection c q m name = some sec ∧ sec.noItemsNotice = false) := by
  refine ⟨?_, ?_, ?_⟩
  · intro ⟨hq, hf⟩
    unfold renderSection
    rw [if_pos ⟨by rw [hf]; rfl, hq⟩]
  · intro hq
    subst hq
    unfold renderSection
    rw [if_neg (fun h => h.2 rfl)]
    refine ⟨_, rfl, ?_⟩
    rw [show filterItems "" (sectionItems c name) = sectionItems c name from rfl]
    simp [List.length_eq_zero]
  · intro ⟨hq, hf⟩
    unfold renderSection
    have hlen : ¬ (filterItems q (sectionItems c name)).length = 0 := by
      simpa [List.length_eq_zero] using hf
    rw [if_neg (fun h => hlen h.1)]
    refine ⟨_, rfl, ?_⟩
    simp [hlen]

/-- Witness for C9 on the demo checklist: the query "zzz" omits
"Safety Precautions"; the empty query renders it without the notice. -/
theorem C9_section_visibility_witness :
    renderSection demoChecklist "zzz" [] "Safety Precautions" = none
    ∧ ∃ sec, renderSection demoChecklist "" [] "Safety Precautions" = some sec
        ∧ (sec.noItemsNotice = true ↔ sectionItems demoChecklist "Safety Precautions" = []) := by
  have h := C9_section_visibility demoChecklist "zzz" [] "Safety Precautions"
  have h' := C9_section_visibility demoChecklist "" [] "Safety Precautions"
  exact ⟨h.1 ⟨by decide, by decide⟩, h'.2.1 rfl⟩

/-- C7: The rendered section names follow the fixed `sectionOrder`
constant (they are exactly the non-omitted entries of `sectionOrder`, in
that order; with an empty query all of `sectionOrder`); rendering is
invariant under permuting the entries of the checklist's section map (keys
being unique); and a section name absent from the map yields the empty
item sequence. -/
theorem C7_fixed_section_order (c : ChecklistData) (q : String) (m : CheckedMap) :
    ((renderSections c q m).map RenderedSection.name
        = sectionOrder.filter (fun n => (renderSection c q m n).isSome))
    ∧ (q = "" → (renderSections c q m).map RenderedSection.name = sectionOrder)
    ∧ (∀ secs' : List (String × List String), secs'.Perm c.sections →
        (secs'.map Prod.fst).Nodup →
        renderSections { c with sections := secs' } q m = renderSections c q m)
    ∧ (∀ name, assocGet c.sections name = none → sectionItems c name = []) := by
  refine ⟨map_name_filterMap c q m sectionOrder, ?_, ?_, ?_⟩
  · intro hq
    subst hq
    unfold renderSections
    rw [map_name_filterMap c "" m sectionOrder]
    exact List.filter_eq_self.mpr
      (fun n _ => renderSection_isSome_empty_query c m n)
  · intro secs' hperm hnd
    unfold renderSections
    exact filterMap_ext _ _ _ (fun name _ =>
      renderSection_sections_congr q m name (assocGet_perm hperm name hnd))
  · intro name h
    simp [sectionItems, h]

/-- Witness for C7: with the empty query the demo checklist renders all
eleven canonical sections in order, and a permuted copy of a two-section
map renders identically. -/
theorem C7_fixed_section_order_witness :
    ((renderSections demoChecklist "" []).map RenderedSection.name = sectionOrder)
    ∧ renderSections
        { demoChecklist with
            sections := [("Notes", ["N1"]), ("Safety Precautions", ["Alpha", "Beta"])] } "" []
      = renderSections
        { demoChecklist with
            sections := [("Safety Precautions", ["Alpha", "Beta"]), ("Notes", ["N1"])] } "" [] := by
  have h := C7_fixed_section_order demoChecklist "" []
  have h' := C7_fixed_section_order
    { demoChecklist with
        sections := [("Safety Precautions", ["Alpha", "Beta"]), ("Notes", ["N1"])] } "" []
  exact ⟨h.2.1 rfl,
    h'.2.2.1 [("Notes", ["N1"]), ("Safety Precautions", ["Alpha", "Beta"])]
      (List.Perm.swap _ _ _) (by decide)⟩

/-- C10: The displayed section names and item texts depend only on the
checklist and the search string: two renders that differ only in the
checked-state map display identical item sequences in identical order. -/
theorem C10_display_independent_of_checked (c : ChecklistData) (q : String)
    (m₁ m₂ : CheckedMap) :
    displayedSections c q m₁ = displayedSections c q m₂ := by
  unfold displayedSections renderSections
  rw [List.map_filterMap, List.map_filterMap]
  refine filterMap_ext _ _ _ (fun name _ => ?_)
  unfold renderSection
  split
  · rfl
  · simp [Option.map_some, List.map_map]

/-- C4: Every rendered row's DOM key and toggle target use the item's
position in the *filtered* list (`filteredItems.map((item, index) => ...)`
with `key = sectionName-index` and `handleItemCheck(sectionName, index)`),
not its position in the full section; consequently the same item text
carries key "Safety Precautions-1" under the empty query but key
"Safety Precautions-0" under the query "Beta". -/
theorem C4_keys_use_filtered_positions :
    (∀ (c : ChecklistData) (q : String) (m : CheckedMap) (name : String)
        (sec : RenderedSection), renderSection c q m name = some sec →
        sec.rows = (filterItems q (sectionItems c name)).enum.map (fun p =>
          { text := p.2
            key := itemKey name p.1
            toggleSection := name
            toggleIndex := p.1
            checked := readChecked m name p.1 }))
    ∧ ((renderSection demoChecklist "" [] "Safety Precautions").map
          (fun sec => sec.rows.map (fun r => (r.text, r.key)))
        = some [("Alpha", "Safety Precautions-0"), ("Beta", "Safety Precautions-1")])
    ∧ ((renderSection demoChecklist "Beta" [] "Safety Precautions").map
          (fun sec => sec.rows.map (fun r => (r.text, r.key)))
        = some [("Beta", "Safety Precautions-0")]) := by
  refine ⟨fun c q m name sec h => renderSection_rows h, ?_, ?_⟩
  · rfl
  · rfl

/-- Witness for C4: the rows rendered for the demo checklist under query
"Beta" are exactly the enumeration of the filtered list, keyed by filtered
position. -/
theorem C4_keys_use_filtered_positions_witness :
    ({ name := "Safety Precautions"
       rows := [{ text := "Beta", key := "Safety Precautions-0"
                  toggleSection := "Safety Precautions", toggleIndex := 0
                  checked := false }]
       noItemsNotice := false } : RenderedSection).rows
      = (filterItems "Beta" (sectionItems demoChecklist "Safety Precautions")).enum.map
          (fun p =>
            { text := p.2
              key := itemKey "Safety Precautions" p.1
              toggleSection := "Safety Precautions"
              toggleIndex := p.1
              checked := readChecked [] "Safety Precautions" p.1 }) := by
  exact C4_keys_use_filtered_positions.1 demoChecklist "Beta" [] "Safety Precautions"
    _ (by rfl)

/-! ## The `Index` page state machine (Index.tsx)

State fields mirror the four `useState` hooks of `Index` plus the mounted
`ChecklistViewer`'s `checkedItems` state.  The viewer element
(lines 187–191) is rendered under `showChecklist && selectedChecklist`
*without a `key` prop*, so React keeps the same component instance — and
its `useState` checked map — whenever the element stays mounted across
re-renders; a fresh instance (empty map) appears only when the viewer goes
from unmounted to mounted.  `checkedItems` below is the state of the
currently mounted viewer instance, `[]` when none is mounted. -/

structure AppState where
  selectedChecklistId : String
  selectedChecklist : Option ChecklistData
  searchQuery : String
  showChecklist : Bool
  checkedItems : CheckedMap
deriving DecidableEq, Repr

def initialState : AppState :=
  { selectedChecklistId := "", selectedChecklist := none, searchQuery := "",
    showChecklist := false, checkedItems := [] }

/-- `showChecklist && selectedChecklist` (Index.tsx line 181): whether a
`ChecklistViewer` element is mounted. -/
def viewerMounted (s : AppState) : Bool :=
  s.showChecklist && s.selectedChecklist.isSome

/-- The user-visible outcome of `handleGenerateChecklist`: the destructive
"Please select a checklist" toast, the "Checklist generated!" toast, or an
uncaught `TypeError` thrown while reading `checklist.title` of `undefined`
for the success toast (in which case no toast is shown). -/
inductive GenerateOutcome where
  | warnNoSelection
  | success (title : String)
  | errorUndefinedTitle
deriving DecidableEq, Repr

/-- `handleGenerateChecklist` (Index.tsx lines 40–58).  With an empty
(falsy) id it shows the warning toast and returns early.  Otherwise it
looks the id up in the static dataset and — with **no** absence check —
runs `setSelectedChecklist(checklist)` and `setShowChecklist(true)`; when
the id is absent the lookup yields `undefined`, both state setters still
run, and evaluating `checklist.title` for the success toast then throws.
The mounted viewer instance keeps its checked map; a previously unmounted
viewer mounts fresh with an empty map. -/
def handleGenerateChecklist (data : List (String × ChecklistData))
    (s : AppState) : AppState × GenerateOutcome :=
  if s.selectedChecklistId = "" then (s, .warnNoSelection)
  else
    match assocGet data s.selectedChecklistId with
    | some c =>
        ({ s with
            selectedChecklist := some c
            showChecklist := true
            checkedItems := if viewerMounted s then s.checkedItems else [] },
         .success c.title)
    | none =>
        ({ s with
            selectedChecklist := none
            showChecklist := true
            checkedItems := [] },
         .errorUndefinedTitle)

/-- The dropdown's `onValueChange={setSelectedChecklistId}`. -/
def selectChecklist (s : AppState) (id : String) : AppState :=
  { s with selectedChecklistId := id }

/-- A click on a rendered row: the viewer's `handleItemCheck` applied to
the mounted viewer's checked map. -/
def toggleItem (s : AppState) (sectionName : String) (itemIndex : Nat) :
    AppState :=
  { s with checkedItems := handleItemCheck s.checkedItems sectionName itemIndex }

/-- A second demo checklist under a different id. -/
def demoChecklist2 : ChecklistData :=
  { id := "other", title := "Other Checklist", equipment := "Fan",
    industry := "HVAC", frequency := "Weekly", estimatedTime := "2h",
    version := "2.0", lastUpdated := "2024-02-20",
    sections := [("Notes", ["Note 1"])] }

/-- A demo static dataset (the shape of `data.json`). -/
def demoData : List (String × ChecklistData) :=
  [("demo", demoChecklist), ("other", demoChecklist2)]

/-- Generate "demo", toggle one item, then generate "other": the state after
the second generate. -/
def afterSecondGenerate : AppState :=
  (handleGenerateChecklist demoData
    (selectChecklist
      (toggleItem
        ((handleGenerateChecklist demoData
          (selectChecklist initialState "demo")).1)
        "Safety Precautions" 0)
      "other")).1

/-- C5: Generating with no identifier selected surfaces the warning
toast, mutates no state, and in particular leaves the show flag `false`
when it was `false`. -/
theorem C5_generate_without_selection (data : List (String × ChecklistData))
    (s : AppState) (h : s.selectedChecklistId = "") :
    handleGenerateChecklist data s = (s, .warnNoSelection)
    ∧ (s.showChecklist = false →
        (handleGenerateChecklist data s).1.showChecklist = false) := by
  constructor
  · simp [handleGenerateChecklist, h]
  · intro hshow
    simp [handleGenerateChecklist, h, hshow]

/-- Witness for C5 at the initial state with the demo dataset. -/
theorem C5_generate_without_selection_witness :
    handleGenerateChecklist demoData initialState
      = (initialState, .warnNoSelection)
    ∧ (initialState.showChecklist = false →
        (handleGenerateChecklist demoData initialState).1.showChecklist = false) :=
  C5_generate_without_selection demoData initialState rfl

/-- C3 counterexample: Generating with the non-empty id "missing",
absent from the demo dataset, does *not* warn and does *not* leave state
unchanged: the show flag flips to `true`, the stored checklist is cleared,
and the handler ends in the `TypeError` outcome rather than the warning. -/
theorem C3_counterexample :
    (handleGenerateChecklist demoData
        (selectChecklist initialState "missing")).2 ≠ GenerateOutcome.warnNoSelection
    ∧ (handleGenerateChecklist demoData
        (selectChecklist initialState "missing")).1.showChecklist = true
    ∧ (selectChecklist initialState "missing").showChecklist = false := by
  decide

/-- C3 amended: For a non-empty selected id absent from the dataset,
`handleGenerateChecklist` performs no absence check: it stores `none` as
the selected checklist, sets the show flag to `true`, and throws a
`TypeError` composing the success toast — no user-visible warning is
surfaced. -/
theorem C3_generate_absent_id (data : List (String × ChecklistData))
    (s : AppState) (h1 : s.selectedChecklistId ≠ "")
    (h2 : assocGet data s.selectedChecklistId = none) :
    handleGenerateChecklist data s
      = ({ s with
            selectedChecklist := none
            showChecklist := true
            checkedItems := [] },
         .errorUndefinedTitle) := by
  simp [handleGenerateChecklist, h1, h2]

/-- Witness for the amended C3 at a concrete absent id. -/
theorem C3_generate_absent_id_witness :
    handleGenerateChecklist demoData (selectChecklist initialState "missing")
      = ({ selectChecklist initialState "missing" with
            selectedChecklist := none
            showChecklist := true
            checkedItems := [] },
         .errorUndefinedTitle) :=
  C3_generate_absent_id demoData (selectChecklist initialState "missing")
    (by decide) (by decide)

/-- C2 counterexample: Generate "demo", toggle item 0 of
"Safety Precautions", then generate "other": the checked-state map is not
reset — it still records the toggled item — because the viewer element has
no checklist-dependent `key` and stays mounted, so no new component
instance is created. -/
theorem C2_counterexample :
    afterSecondGenerate.selectedChecklist = some demoChecklist2
    ∧ afterSecondGenerate.checkedItems ≠ []
    ∧ readChecked afterSecondGenerate.checkedItems "Safety Precautions" 0 = true := by
  decide

/-- C2 amended: Generating a (different) checklist that exists in the
dataset resets the checked-state map only when no viewer was mounted; when
a checklist is already shown, the same viewer instance is reused and every
previously toggled entry survives unchanged. -/
theorem C2_generate_preserves_checked (data : List (String × ChecklistData))
    (s : AppState) (c : ChecklistData) (h1 : s.selectedChecklistId ≠ "")
    (h2 : assocGet data s.selectedChecklistId = some c) :
    (viewerMounted s = true →
        (handleGenerateChecklist data s).1.checkedItems = s.checkedItems)
    ∧ (viewerMounted s = false →
        (handleGenerateChecklist data s).1.checkedItems = []) := by
  constructor
  · intro hm
    simp [handleGenerateChecklist, h1, h2, hm]
  · intro hm
    simp [handleGenerateChecklist, h1, h2, hm]

/-- Witness for the amended C2 along the concrete trace: the second
generate keeps the toggled map of the mounted viewer. -/
theorem C2_generate_preserves_checked_witness :
    (handleGenerateChecklist demoData
        (selectChecklist
          (toggleItem
            ((handleGenerateChecklist demoData
              (selectChecklist initialState "demo")).1)
            "Safety Precautions" 0)
          "other")).1.checkedItems
      = (selectChecklist
          (toggleItem
            ((handleGenerateChecklist demoData
              (selectChecklist initialState "demo")).1)
            "Safety Precautions" 0)
          "other").checkedItems :=
  (C2_generate_preserves_checked demoData _ demoChecklist2
    (by decide) (by decide)).1 (by decide)

/-! ## `handleCopyJSON` (Index.tsx lines 60–68) and JSON serialization

```js
const handleCopyJSON = () => {
  if (!selectedChecklist) return;
  navigator.clipboard.writeText(JSON.stringify(selectedChecklist, null, 2));
  ...
};
```

`JSON.stringify(c, null, 2)` is modelled character-exactly for the
checklist record shape (an object of eight string fields plus the
`sections` object of string arrays, in the declaration order of the
`ChecklistData` interface): two-space indentation, `", "`-free pretty
layout with `",\n"` separators, empty objects and arrays rendered as
`{}`/`[]`, and the ECMA-262 string quoting (short escapes for `"`, `\`,
backspace, tab, newline, form feed, carriage return; `\u00xx` with
lowercase hex for the remaining control characters; all other characters
literal).  `parseChecklist` is the inverse reader of that textual form. -/

def hexDigitChar (n : Nat) : Char :=
  if n = 0 then '0' else if n = 1 then '1' else if n = 2 then '2'
  else if n = 3 then '3' else if n = 4 then '4' else if n = 5 then '5'
  else if n = 6 then '6' else if n = 7 then '7' else if n = 8 then '8'
  else if n = 9 then '9' else if n = 10 then 'a' else if n = 11 then 'b'
  else if n = 12 then 'c' else if n = 13 then 'd' else if n = 14 then 'e'
  else 'f'

def escapeChar (c : Char) : List Char :=
  if c = '"' then ['\\', '"']
  else if c = '\\' then ['\\', '\\']
  else if c.toNat = 8 then ['\\', 'b']
  else if c.toNat = 9 then ['\\', 't']
  else if c.toNat = 10 then ['\\', 'n']
  else if c.toNat = 12 then ['\\', 'f']
  else if c.toNat = 13 then ['\\', 'r']
  else if c.toNat < 32 then
    ['\\', 'u', '0', '0', hexDigitChar (c.toNat / 16), hexDigitChar (c.toNat % 16)]
  else [c]

def escapeList : List Char → List Char
  | [] => []
  | c :: rest => escapeChar c ++ escapeList rest

/-- A JSON string literal: `"` + escaped characters + `"`. -/
def renderString (s : String) : List Char := '"' :: escapeList s.data ++ ['"']

/-- Fixed layout chunks of `JSON.stringify(·, null, 2)` at the three
nesting depths of a checklist record. -/
def ind2 : List Char := [' ', ' ']

def ind4 : List Char := [' ', ' ', ' ', ' ']

def ind6 : List Char := [' ', ' ', ' ', ' ', ' ', ' ']

def litColon : List Char := [':', ' ']

def litTopStart : List Char := '{' :: '\n' :: ind2

def litTopSep : List Char := ',' :: '\n' :: ind2

def litTopEnd : List Char := ['\n', '}']

def litObjStart : List Char := '{' :: '\n' :: ind4

def litObjSep : List Char := ',' :: '\n' :: ind4

def litObjEnd : List Char := '\n' :: ind2 ++ ['}']

def litArrayStart : List Char := '[' :: '\n' :: ind6

def litArraySep : List Char := ',' :: '\n' :: ind6

def litArrayEnd : List Char := '\n' :: ind4 ++ [']']

def arrayTail : List String → List Char
  | [] => litArrayEnd
  | y :: r => litArraySep ++ renderString y ++ arrayTail r

/-- A section's item array at depth three. -/
def renderArray : List String → List Char
  | [] => ['[', ']']
  | x :: rest => litArrayStart ++ renderString x ++ arrayTail rest

def sectionsTail : List (String × List String) → List Char
  | [] => litObjEnd
  | p :: r => litObjSep ++ renderString p.1 ++ litColon ++ renderArray p.2 ++ sectionsTail r

/-- The `sections` object at depth two. -/
def renderSectionsObj : List (String × List String) → List Char
  | [] => ['{', '}']
  | p :: r =>
      litObjStart ++ renderString p.1 ++ litColon ++ renderArray p.2 ++ sectionsTail r

/-- `JSON.stringify(c, null, 2)`. -/
def stringifyChecklist (c : ChecklistData) : String :=
  ⟨litTopStart ++ renderString "id" ++ litColon ++ renderString c.id
    ++ litTopSep ++ renderString "title" ++ litColon ++ renderString c.title
    ++ litTopSep ++ renderString "equipment" ++ litColon ++ renderString c.equipment
    ++ litTopSep ++ renderString "industry" ++ litColon ++ renderString c.industry
    ++ litTopSep ++ renderString "frequency" ++ litColon ++ renderString c.frequency
    ++ litTopSep ++ renderString "estimatedTime" ++ litColon ++ renderString c.estimatedTime
    ++ litTopSep ++ renderString "version" ++ litColon ++ renderString c.version
    ++ litTopSep ++ renderString "lastUpdated" ++ litColon ++ renderString c.lastUpdated
    ++ litTopSep ++ renderString "sections" ++ litColon ++ renderSectionsObj c.sections
    ++ litTopEnd⟩

/-- The clipboard write of `handleCopyJSON`: `none` models the early
return (nothing written) when no checklist is selected. -/
def handleCopyJSON (s : AppState) : Option String :=
  match s.selectedChecklist with
  | none => none
  | some c => some (stringifyChecklist c)

/-! ### The reader -/

def hexDigitVal (c : Char) : Option Nat :=
  if c = '0' then some 0 else if c = '1' then some 1 else if c = '2' then some 2
  else if c = '3' then some 3 else if c = '4' then some 4 else if c = '5' then some 5
  else if c = '6' then some 6 else if c = '7' then some 7 else if c = '8' then some 8
  else if c = '9' then some 9 else if c = 'a' then some 10 else if c = 'b' then some 11
  else if c = 'c' then some 12 else if c = 'd' then some 13 else if c = 'e' then some 14
  else if c = 'f' then some 15 else none

def unescapeChar (e : Char) : Option Char :=
  if e = '"' then some '"'
  else if e = '\\' then some '\\'
  else if e = '/' then some '/'
  else if e = 'b' then some (Char.ofNat 8)
  else if e = 't' then some (Char.ofNat 9)
  else if e = 'n' then some (Char.ofNat 10)
  else if e = 'f' then some (Char.ofNat 12)
  else if e = 'r' then some (Char.ofNat 13)
  else none

/-- Read the body of a string literal up to its closing quote; returns the
unescaped content and the remaining input. -/
def parseStringBody : List Char → Option (List Char × List Char)
  | [] => none
  | c :: rest =>
      if c = '"' then some ([], rest)
      else if c = '\\' then
        match rest with
        | 'u' :: h1 :: h2 :: h3 :: h4 :: rest2 =>
            match hexDigitVal h1, hexDigitVal h2, hexDigitVal h3, hexDigitVal h4 with
            | some v1, some v2, some v3, some v4 =>
                match parseStringBody rest2 with
                | some (s, r) =>
                    some (Char.ofNat (((v1 * 16 + v2) * 16 + v3) * 16 + v4) :: s, r)
                | none => none
            | _, _, _, _ => none
        | e :: rest2 =>
            match unescapeChar e with
            | some u =>
                match parseStringBody rest2 with
                | some (s, r) => some (u :: s, r)
                | none => none
            | none => none
        | [] => none
      else
        match parseStringBody rest with
        | some (s, r) => some (c :: s, r)
        | none => none

/-- Read a string literal (opening quote included). -/
def parseJString (l : List Char) : Option (List Char × List Char) :=
  match l with
  | '"' :: r => parseStringBody r
  | _ => none

/-- Consume an expected literal chunk. -/
def expectLit : List Char → List Char → Option (List Char)
  | [], l => some l
  | _ :: _, [] => none
  | c :: cs, d :: l => if d = c then expectLit cs l else none

/-- Read the items of a non-empty array after its first item. -/
def parseItemsRest : Nat → List Char → Option (List String × List Char)
  | 0, _ => none
  | fuel + 1, l =>
      match expectLit litArrayEnd l with
      | some r => some ([], r)
      | none =>
          match expectLit litArraySep l with
          | some r =>
              match parseJString r with
              | some (s, r2) =>
                  match parseItemsRest fuel r2 with
                  | some (items, r3) => some (⟨s⟩ :: items, r3)
                  | none => none
              | none => none
          | none => none

/-- Read a section's item array. -/
def parseArray (fuel : Nat) (l : List Char) : Option (List String × List Char) :=
  match expectLit ['[', ']'] l with
  | some r => some ([], r)
  | none =>
      match expectLit litArrayStart l with
      | some r =>
          match parseJString r with
          | some (s, r2) =>
              match parseItemsRest fuel r2 with
              | some (items, r3) => some (⟨s⟩ :: items, r3)
              | none => none
          | none => none
      | none => none

/-- Read the entries of a non-empty sections object after its first entry. -/
def parseEntriesRest : Nat → List Char → Option (List (String × List String) × List Char)
  | 0, _ => none
  | fuel + 1, l =>
      match expectLit litObjEnd l with
      | some r => some ([], r)
      | none =>
          match expectLit litObjSep l with
          | some r =>
              match parseJString r with
              | some (k, r2) =>
                  match expectLit litColon r2 with
                  | some r3 =>
                      match parseArray fuel r3 with
                      | some (items, r4) =>
                          match parseEntriesRest fuel r4 with
                          | some (entries, r5) => some ((⟨k⟩, items) :: entries, r5)
                          | none => none
                      | none => none
                  | none => none
              | none => none
          | none => none

/-- Read the `sections` object. -/
def parseSectionsObj (fuel : Nat) (l : List Char) :
    Option (List (String × List String) × List Char) :=
  match expectLit ['{', '}'] l with
  | some r => some ([], r)
  | none =>
      match expectLit litObjStart l with
      | some r =>
          match parseJString r with
          | some (k, r2) =>
              match expectLit litColon r2 with
              | some r3 =>
                  match parseArray fuel r3 with
                  | some (items, r4) =>
                      match parseEntriesRest fuel r4 with
                      | some (entries, r5) => some ((⟨k⟩, items) :: entries, r5)
                      | none => none
                  | none => none
              | none => none
          | none => none
      | none => none

/-- Read one `"name": "value"` field, checking the field name. -/
def parseField (name : String) (l : List Char) : Option (String × List Char) :=
  match parseJString l with
  | some (k, r) =>
      if k = name.data then
        match expectLit litColon r with
        | some r2 =>
            match parseJString r2 with
            | some (v, r3) => some (⟨v⟩, r3)
            | none => none
        | none => none
      else none
  | none => none

/-- Read one field and the separator that follows it. -/
def parseFieldSep (name : String) (l : List Char) : Option (String × List Char) :=
  match parseField name l with
  | some p =>
      match expectLit litTopSep p.2 with
      | some r => some (p.1, r)
      | none => none
  | none => none

/-- Read a run of separated fields with the given names, in order. -/
def parseFields : List String → List Char → Option (List String × List Char)
  | [], l => some ([], l)
  | name :: names, l =>
      match parseFieldSep name l with
      | some p =>
          match parseFields names p.2 with
          | some q => some (p.1 :: q.1, q.2)
          | none => none
      | none => none

/-- The eight string fields of the record, in interface order. -/
def topFieldNames : List String :=
  ["id", "title", "equipment", "industry", "frequency", "estimatedTime",
   "version", "lastUpdated"]

def parseChecklistAux (fuel : Nat) (l : List Char) :
    Option (ChecklistData × List Char) :=
  match expectLit litTopStart l with
  | none => none
  | some r0 =>
    match parseFields topFieldNames r0 with
    | none => none
    | some q =>
      match q.1 with
      | [idv, titlev, equipv, indusv, freqv, estv, versv, lastv] =>
          match parseJString q.2 with
          | none => none
          | some pk =>
            if pk.1 = "sections".data then
              match expectLit litColon pk.2 with
              | none => none
              | some r9 =>
                match parseSectionsObj fuel r9 with
                | none => none
                | some ps =>
                  match expectLit litTopEnd ps.2 with
                  | none => none
                  | some r10 =>
                      some ({ id := idv, title := titlev, equipment := equipv,
                              industry := indusv, frequency := freqv,
                              estimatedTime := estv, version := versv,
                              lastUpdated := lastv, sections := ps.1 }, r10)
            else none
      | _ => none

/-- Parse a full pretty-printed checklist record, requiring the input to be
consumed exactly. -/
def parseChecklist (s : String) : Option ChecklistData :=
  match parseChecklistAux (s.data.length + 1) s.data with
  | some (c, r) => if r = [] then some c else none
  | none => none

/-! ### Round-trip lemmas -/

theorem expectLit_append (lit tail : List Char) :
    expectLit lit (lit ++ tail) = some tail := by
  induction lit with
  | nil => rfl
  | cons c cs ih => simp [expectLit, ih]

theorem hexRound : ∀ m, m < 16 → hexDigitVal (hexDigitChar m) = some m := by
  decide

/-- Reading a string body that opens with the closing quote. -/
theorem parseStringBody_quote (tail : List Char) :
    parseStringBody ('"' :: tail) = some ([], tail) := by
  rcases tail with _ | ⟨e, rest2⟩
  · rw [parseStringBody.eq_4, if_pos rfl]
  · by_cases hu : e = 'u'
    · subst hu
      rcases rest2 with _ | ⟨a, rest3⟩
      · rw [parseStringBody.eq_3 _ 'u' []
          (fun _ _ _ _ _ _ hr => List.noConfusion hr), if_pos rfl]
      · rcases rest3 with _ | ⟨b, rest4⟩
        · rw [parseStringBody.eq_3 _ 'u' [a]
            (fun _ _ _ _ _ _ hr => by
              injection hr with _ hr2; exact List.noConfusion hr2), if_pos rfl]
        · rcases rest4 with _ | ⟨b2, rest5⟩
          · rw [parseStringBody.eq_3 _ 'u' [a, b]
              (fun _ _ _ _ _ _ hr => by
                injection hr with _ hr2; injection hr2 with _ hr3
                exact List.noConfusion hr3), if_pos rfl]
          · rcases rest5 with _ | ⟨b3, rest6⟩
            · rw [parseStringBody.eq_3 _ 'u' [a, b, b2]
                (fun _ _ _ _ _ _ hr => by
                  injection hr with _ hr2; injection hr2 with _ hr3
                  injection hr3 with _ hr4; exact List.noConfusion hr4), if_pos rfl]
            · rw [parseStringBody.eq_2, if_pos rfl]
    · rw [parseStringBody.eq_3 _ e rest2 (fun _ _ _ _ _ heq _ => hu heq), if_pos rfl]

/-- Reading a string body that opens with an unescaped ordinary character. -/
theorem parseStringBody_cons_lit (c : Char) (tail : List Char)
    (res : List Char × List Char)
    (h1 : ¬ c = '"') (h2 : ¬ c = '\\') (h : parseStringBody tail = some res) :
    parseStringBody (c :: tail) = some (c :: res.1, res.2) := by
  rcases tail with _ | ⟨e, rest2⟩
  · rw [parseStringBody.eq_1] at h
    exact Option.noConfusion h
  · by_cases hu : e = 'u'
    · subst hu
      rcases rest2 with _ | ⟨a, rest3⟩
      · rw [parseStringBody.eq_3 c 'u' []
          (fun _ _ _ _ _ _ hr => List.noConfusion hr), if_neg h1, if_neg h2, h]
      · rcases rest3 with _ | ⟨b, rest4⟩
        · rw [parseStringBody.eq_3 c 'u' [a]
            (fun _ _ _ _ _ _ hr => by
              injection hr with _ hr2; exact List.noConfusion hr2),
            if_neg h1, if_neg h2, h]
        · rcases rest4 with _ | ⟨b2, rest5⟩
          · rw [parseStringBody.eq_3 c 'u' [a, b]
              (fun _ _ _ _ _ _ hr => by
                injection hr with _ hr2; injection hr2 with _ hr3
                exact List.noConfusion hr3),
              if_neg h1, if_neg h2, h]
          · rcases rest5 with _ | ⟨b3, rest6⟩
            · rw [parseStringBody.eq_3 c 'u' [a, b, b2]
                (fun _ _ _ _ _ _ hr => by
                  injection hr with _ hr2; injection hr2 with _ hr3
                  injection hr3 with _ hr4; exact List.noConfusion hr4),
                if_neg h1, if_neg h2, h]
            · rw [parseStringBody.eq_2, if_neg h1, if_neg h2, h]
    · rw [parseStringBody.eq_3 c e rest2 (fun _ _ _ _ _ heq _ => hu heq),
        if_neg h1, if_neg h2, h]

theorem parseStringBody_escapeChar (c : Char) (tail : List Char)
    (res : List Char × List Char) (h : parseStringBody tail = some res) :
    parseStringBody (escapeChar c ++ tail) = some (c :: res.1, res.2) := by
  by_cases h1 : c = '"'
  · subst h1
    rw [show escapeChar '"' ++ tail = '\\' :: '"' :: tail from rfl,
      parseStringBody.eq_3 '\\' '"' tail
        (fun _ _ _ _ _ heq _ => by exact absurd heq (by decide)),
      if_neg (by decide), if_pos rfl]
    simp [unescapeChar, h]
  by_cases h2 : c = '\\'
  · subst h2
    rw [show escapeChar '\\' ++ tail = '\\' :: '\\' :: tail from rfl,
      parseStringBody.eq_3 '\\' '\\' tail
        (fun _ _ _ _ _ heq _ => by exact absurd heq (by decide)),
      if_neg (by decide), if_pos rfl]
    simp [unescapeChar, h]
  by_cases h3 : c.toNat = 8
  · have hc : Char.ofNat 8 = c := by rw [← h3, Char.ofNat_toNat]
    rw [show escapeChar c ++ tail = '\\' :: 'b' :: tail by
        simp [escapeChar, h1, h2, h3],
      parseStringBody.eq_3 '\\' 'b' tail
        (fun _ _ _ _ _ heq _ => by exact absurd heq (by decide)),
      if_neg (by decide), if_pos rfl]
    simp [unescapeChar, h]
    exact hc
  by_cases h4 : c.toNat = 9
  · have hc : Char.ofNat 9 = c := by rw [← h4, Char.ofNat_toNat]
    rw [show escapeChar c ++ tail = '\\' :: 't' :: tail by
        simp [escapeChar, h1, h2, h3, h4],
      parseStringBody.eq_3 '\\' 't' tail
        (fun _ _ _ _ _ heq _ => by exact absurd heq (by decide)),
      if_neg (by decide), if_pos rfl]
    simp [unescapeChar, h]
    exact hc
  by_cases h5 : c.toNat = 10
  · have hc : Char.ofNat 10 = c := by rw [← h5, Char.ofNat_toNat]
    rw [show escapeChar c ++ tail = '\\' :: 'n' :: tail by
        simp [escapeChar, h1, h2, h3, h4, h5],
      parseStringBody.eq_3 '\\' 'n' tail
        (fun _ _ _ _ _ heq _ => by exact absurd heq (by decide)),
      if_neg (by decide), if_pos rfl]
    simp [unescapeChar, h]
    exact hc
  by_cases h6 : c.toNat = 12
  · have hc : Char.ofNat 12 = c := by rw [← h6, Char.ofNat_toNat]
    rw [show escapeChar c ++ tail = '\\' :: 'f' :: tail by
        simp [escapeChar, h1, h2, h3, h4, h5, h6],
      parseStringBody.eq_3 '\\' 'f' tail
        (fun _ _ _ _ _ heq _ => by exact absurd heq (by decide)),
      if_neg (by decide), if_pos rfl]
    simp [unescapeChar, h]
    exact hc
  by_cases h7 : c.toNat = 13
  · have hc : Char.ofNat 13 = c := by rw [← h7, Char.ofNat_toNat]
    rw [show escapeChar c ++ tail = '\\' :: 'r' :: tail by
        simp [escapeChar, h1, h2, h3, h4, h5, h6, h7],
      parseStringBody.eq_3 '\\' 'r' tail
        (fun _ _ _ _ _ heq _ => by exact absurd heq (by decide)),
      if_neg (by decide), if_pos rfl]
    simp [unescapeChar, h]
    exact hc
  by_cases h8 : c.toNat < 32
  · have e0 : hexDigitVal '0' = some 0 := rfl
    have e1 : hexDigitVal (hexDigitChar (c.toNat / 16)) = some (c.toNat / 16) :=
      hexRound _ (by omega)
    have e2 : hexDigitVal (hexDigitChar (c.toNat % 16)) = some (c.toNat % 16) :=
      hexRound _ (by omega)
    have hch : Char.ofNat (((0 * 16 + 0) * 16 + c.toNat / 16) * 16 + c.toNat % 16)
        = c := by
      rw [show ((0 * 16 + 0) * 16 + c.toNat / 16) * 16 + c.toNat % 16 = c.toNat by
        omega, Char.ofNat_toNat]
    rw [show escapeChar c ++ tail
          = '\\' :: 'u' :: '0' :: '0' :: hexDigitChar (c.toNat / 16)
              :: hexDigitChar (c.toNat % 16) :: tail by
        simp [escapeChar, h1, h2, h3, h4, h5, h6, h7, h8],
      parseStringBody.eq_2, if_neg (by decide), if_pos rfl, e0, e1, e2, h]
    show some (Char.ofNat (((0 * 16 + 0) * 16 + c.toNat / 16) * 16 + c.toNat % 16)
        :: res.1, res.2) = some (c :: res.1, res.2)
    rw [hch]
  · rw [show escapeChar c ++ tail = c :: tail by
        simp [escapeChar, h1, h2, h3, h4, h5, h6, h7, h8]]
    exact parseStringBody_cons_lit c tail res h1 h2 h

theorem parseStringBody_escapeList (s : List Char) :
    ∀ tail, parseStringBody (escapeList s ++ '"' :: tail) = some (s, tail) := by
  induction s with
  | nil =>
      intro tail
      rw [show escapeList [] ++ '"' :: tail = '"' :: tail from rfl]
      exact parseStringBody_quote tail
  | cons c s' ih =>
      intro tail
      rw [show escapeList (c :: s') ++ '"' :: tail
            = escapeChar c ++ (escapeList s' ++ '"' :: tail) by
          simp [escapeList, List.append_assoc]]
      exact parseStringBody_escapeChar c _ (s', tail) (ih tail)

theorem parseJString_render (s : String) (tail : List Char) :
    parseJString (renderString s ++ tail) = some (s.data, tail) := by
  rw [show renderString s ++ tail = '"' :: (escapeList s.data ++ '"' :: tail) by
    simp [renderString, List.append_assoc]]
  exact parseStringBody_escapeList s.data tail

theorem expectLit_self (lit : List Char) : expectLit lit lit = some [] := by
  have h := expectLit_append lit []
  rwa [List.append_nil] at h

theorem string_mk_data (s : String) : String.mk s.data = s := rfl

theorem parseItemsRest_arrayTail :
    ∀ (items : List String) (fuel : Nat) (tail : List Char), items.length < fuel →
      parseItemsRest fuel (arrayTail items ++ tail) = some (items, tail) := by
  intro items
  induction items with
  | nil =>
      intro fuel tail hf
      cases fuel with
      | zero => omega
      | succ f =>
          rw [show arrayTail [] ++ tail = litArrayEnd ++ tail from rfl]
          simp only [parseItemsRest]
          rw [expectLit_append]
  | cons y r ih =>
      intro fuel tail hf
      cases fuel with
      | zero => omega
      | succ f =>
          have hshape : arrayTail (y :: r) ++ tail
              = litArraySep ++ (renderString y ++ (arrayTail r ++ tail)) := by
            simp [arrayTail, List.append_assoc]
          have hnone : expectLit litArrayEnd
              (litArraySep ++ (renderString y ++ (arrayTail r ++ tail))) = none := by
            simp [litArrayEnd, litArraySep, expectLit]
          rw [hshape]
          simp only [parseItemsRest, hnone, expectLit_append, parseJString_render,
            string_mk_data]
          rw [ih f tail (by simp only [List.length_cons] at hf; omega)]

theorem parseArray_render (items : List String) (fuel : Nat) (tail : List Char)
    (hf : items.length ≤ fuel) :
    parseArray fuel (renderArray items ++ tail) = some (items, tail) := by
  cases items with
  | nil =>
      rw [show renderArray [] ++ tail = ['[', ']'] ++ tail from rfl]
      simp only [parseArray]
      rw [expectLit_append]
  | cons x rest =>
      have hshape : renderArray (x :: rest) ++ tail
          = litArrayStart ++ (renderString x ++ (arrayTail rest ++ tail)) := by
        simp [renderArray, List.append_assoc]
      have hnone : expectLit ['[', ']']
          (litArrayStart ++ (renderString x ++ (arrayTail rest ++ tail))) = none := by
        simp [litArrayStart, expectLit]
      rw [hshape]
      simp only [parseArray, hnone, expectLit_append, parseJString_render,
        string_mk_data]
      rw [parseItemsRest_arrayTail rest fuel tail
        (by simp only [List.length_cons] at hf; omega)]

/-- Fuel needed to read a sections object: one unit per entry plus one per
item. -/
def entriesWeight : List (String × List String) → Nat
  | [] => 0
  | p :: r => 1 + p.2.length + entriesWeight r

theorem parseEntriesRest_sectionsTail :
    ∀ (secs : List (String × List String)) (fuel : Nat) (tail : List Char),
      entriesWeight secs < fuel →
      parseEntriesRest fuel (sectionsTail secs ++ tail) = some (secs, tail) := by
  intro secs
  induction secs with
  | nil =>
      intro fuel tail hf
      cases fuel with
      | zero => simp [entriesWeight] at hf
      | succ f =>
          rw [show sectionsTail [] ++ tail = litObjEnd ++ tail from rfl]
          simp only [parseEntriesRest]
          rw [expectLit_append]
  | cons p r ih =>
      intro fuel tail hf
      cases fuel with
      | zero => simp [entriesWeight] at hf
      | succ f =>
          simp only [entriesWeight] at hf
          have hshape : sectionsTail (p :: r) ++ tail
              = litObjSep ++ (renderString p.1 ++ (litColon
                  ++ (renderArray p.2 ++ (sectionsTail r ++ tail)))) := by
            simp [sectionsTail, List.append_assoc]
          have hnone : expectLit litObjEnd
              (litObjSep ++ (renderString p.1 ++ (litColon
                ++ (renderArray p.2 ++ (sectionsTail r ++ tail))))) = none := by
            simp [litObjEnd, litObjSep, expectLit]
          rw [hshape]
          simp only [parseEntriesRest, hnone, expectLit_append, parseJString_render,
            string_mk_data]
          rw [parseArray_render p.2 f (sectionsTail r ++ tail) (by omega)]
          simp only [ih f tail (by omega), Prod.mk.eta]

theorem parseSectionsObj_render (secs : List (String × List String)) (fuel : Nat)
    (tail : List Char) (hf : entriesWeight secs ≤ fuel) :
    parseSectionsObj fuel (renderSectionsObj secs ++ tail) = some (secs, tail) := by
  cases secs with
  | nil =>
      rw [show renderSectionsObj [] ++ tail = ['{', '}'] ++ tail from rfl]
      simp only [parseSectionsObj]
      rw [expectLit_append]
  | cons p r =>
      simp only [entriesWeight] at hf
      have hshape : renderSectionsObj (p :: r) ++ tail
          = litObjStart ++ (renderString p.1 ++ (litColon
              ++ (renderArray p.2 ++ (sectionsTail r ++ tail)))) := by
        simp [renderSectionsObj, List.append_assoc]
      have hnone : expectLit ['{', '}']
          (litObjStart ++ (renderString p.1 ++ (litColon
            ++ (renderArray p.2 ++ (sectionsTail r ++ tail))))) = none := by
        simp [litObjStart, expectLit]
      rw [hshape]
      simp only [parseSectionsObj, hnone, expectLit_append, parseJString_render,
        string_mk_data]
      rw [parseArray_render p.2 fuel (sectionsTail r ++ tail) (by omega)]
      simp only [parseEntriesRest_sectionsTail r fuel tail (by omega), Prod.mk.eta]

theorem parseField_render (name v : String) (tail : List Char) :
    parseField name (renderString name ++ (litColon ++ (renderString v ++ tail)))
      = some (v, tail) := by
  simp only [parseField]
  rw [parseJString_render]
  simp [expectLit_append, parseJString_render]

theorem parseFieldSep_render (name v : String) (tail : List Char) :
    parseFieldSep name (renderString name ++ (litColon
        ++ (renderString v ++ (litTopSep ++ tail)))) = some (v, tail) := by
  simp only [parseFieldSep]
  rw [parseField_render]
  simp [expectLit_append]

/-- The top-level run of `"name": "value",\n  ` chunks of the pretty form. -/
def renderFieldsChunk : List (String × String) → List Char
  | [] => []
  | p :: r =>
      renderString p.1 ++ (litColon
        ++ (renderString p.2 ++ (litTopSep ++ renderFieldsChunk r)))

theorem parseFields_render :
    ∀ (pairs : List (String × String)) (tail : List Char),
      parseFields (pairs.map Prod.fst) (renderFieldsChunk pairs ++ tail)
        = some (pairs.map Prod.snd, tail) := by
  intro pairs
  induction pairs with
  | nil =>
      intro tail
      simp [parseFields, renderFieldsChunk]
  | cons p r ih =>
      intro tail
      have hshape : renderFieldsChunk (p :: r) ++ tail
          = renderString p.1 ++ (litColon
              ++ (renderString p.2 ++ (litTopSep ++ (renderFieldsChunk r ++ tail)))) := by
        simp [renderFieldsChunk, List.append_assoc]
      simp only [List.map_cons, parseFields]
      rw [hshape]
      simp only [parseFieldSep_render, ih tail]

theorem stringify_data_eq (c : ChecklistData) :
    (stringifyChecklist c).data
      = litTopStart ++ (renderFieldsChunk
          [("id", c.id), ("title", c.title), ("equipment", c.equipment),
           ("industry", c.industry), ("frequency", c.frequency),
           ("estimatedTime", c.estimatedTime), ("version", c.version),
           ("lastUpdated", c.lastUpdated)]
        ++ (renderString "sections" ++ (litColon
            ++ (renderSectionsObj c.sections ++ litTopEnd)))) := by
  simp [stringifyChecklist, renderFieldsChunk, List.append_assoc]

theorem parseChecklistAux_stringify (c : ChecklistData) (fuel : Nat)
    (hf : entriesWeight c.sections ≤ fuel) :
    parseChecklistAux fuel (stringifyChecklist c).data = some (c, []) := by
  have hfields := parseFields_render
    [("id", c.id), ("title", c.title), ("equipment", c.equipment),
     ("industry", c.industry), ("frequency", c.frequency),
     ("estimatedTime", c.estimatedTime), ("version", c.version),
     ("lastUpdated", c.lastUpdated)]
    (renderString "sections" ++ (litColon ++ (renderSectionsObj c.sections ++ litTopEnd)))
  simp only [List.map_cons, List.map_nil] at hfields
  have hsec : ("sections" : String).data = ['s', 'e', 'c', 't', 'i', 'o', 'n', 's'] := rfl
  have heta : ({ id := c.id
                 title := c.title
                 equipment := c.equipment
                 industry := c.industry
                 frequency := c.frequency
                 estimatedTime := c.estimatedTime
                 version := c.version
                 lastUpdated := c.lastUpdated
                 sections := c.sections } : ChecklistData) = c := rfl
  rw [stringify_data_eq]
  simp only [parseChecklistAux, topFieldNames, expectLit_append, hfields,
    parseJString_render, hsec, expectLit_self,
    parseSectionsObj_render c.sections fuel litTopEnd hf,
    string_mk_data, heta, if_true, eq_self_iff_true]

theorem renderString_len (s : String) : 2 ≤ (renderString s).length := by
  simp [renderString]

theorem arrayTail_len : ∀ items : List String,
    items.length + 1 ≤ (arrayTail items).length := by
  intro items
  induction items with
  | nil => simp [arrayTail, litArrayEnd, ind4]
  | cons y r ih =>
      have hy := renderString_len y
      simp only [arrayTail, litArraySep, ind6, List.length_append, List.length_cons] at *
      omega

theorem renderArray_len (items : List String) :
    items.length ≤ (renderArray items).length := by
  cases items with
  | nil => simp [renderArray]
  | cons x rest =>
      have h1 := renderString_len x
      have h2 := arrayTail_len rest
      simp only [renderArray, litArrayStart, ind6, List.length_append,
        List.length_cons] at *
      omega

theorem sectionsTail_len : ∀ secs : List (String × List String),
    entriesWeight secs + 1 ≤ (sectionsTail secs).length := by
  intro secs
  induction secs with
  | nil => simp [sectionsTail, litObjEnd, ind2, entriesWeight]
  | cons p r ih =>
      have h1 := renderString_len p.1
      have h2 := renderArray_len p.2
      simp only [sectionsTail, entriesWeight, litObjSep, litColon, ind4,
        List.length_append, List.length_cons] at *
      omega

theorem renderSectionsObj_len (secs : List (String × List String)) :
    entriesWeight secs ≤ (renderSectionsObj secs).length := by
  cases secs with
  | nil => simp [renderSectionsObj, entriesWeight]
  | cons p r =>
      have h1 := renderString_len p.1
      have h2 := renderArray_len p.2
      have h3 := sectionsTail_len r
      simp only [renderSectionsObj, entriesWeight, litObjStart, litColon, ind4,
        List.length_append, List.length_cons] at *
      omega

theorem entriesWeight_le_stringify_len (c : ChecklistData) :
    entriesWeight c.sections ≤ (stringifyChecklist c).data.length := by
  have h := renderSectionsObj_len c.sections
  simp only [stringifyChecklist, List.length_append]
  omega

/-- Parsing the pretty-printed serialization recovers the checklist record
exactly. -/
theorem parseChecklist_stringify (c : ChecklistData) :
    parseChecklist (stringifyChecklist c) = some c := by
  have h := parseChecklistAux_stringify c ((stringifyChecklist c).data.length + 1)
    (by have := entriesWeight_le_stringify_len c; omega)
  simp only [parseChecklist]
  rw [h]
  simp

/-- C6: With a checklist selected, the copy action writes exactly the
pretty-printed serialization of the full record — determined by the
selected checklist alone, hence unaffected by the search string and the
checked-state map — and parsing that text yields a record equal to the
selected one; with no checklist selected the copy action writes nothing. -/
theorem C6_copy_json_roundtrip :
    (∀ s : AppState, s.selectedChecklist = none → handleCopyJSON s = none)
    ∧ (∀ (s : AppState) (c : ChecklistData), s.selectedChecklist = some c →
        handleCopyJSON s = some (stringifyChecklist c))
    ∧ (∀ c : ChecklistData, parseChecklist (stringifyChecklist c) = some c)
    ∧ (∀ s₁ s₂ : AppState, s₁.selectedChecklist = s₂.selectedChecklist →
        handleCopyJSON s₁ = handleCopyJSON s₂) := by
  refine ⟨?_, ?_, parseChecklist_stringify, ?_⟩
  · intro s h
    simp [handleCopyJSON, h]
  · intro s c h
    simp [handleCopyJSON, h]
  · intro s₁ s₂ h
    simp only [handleCopyJSON, h]

/-- Witness for C6: the demo checklist's serialization round-trips, the
clipboard text ignores search and checked state, and the empty selection
writes nothing. -/
theorem C6_copy_json_roundtrip_witness :
    handleCopyJSON initialState = none
    ∧ handleCopyJSON { initialState with selectedChecklist := some demoChecklist }
        = some (stringifyChecklist demoChecklist)
    ∧ parseChecklist (stringifyChecklist demoChecklist) = some demoChecklist
    ∧ handleCopyJSON
        { initialState with
            selectedChecklist := some demoChecklist
            searchQuery := "pressure"
            checkedItems := [("Safety Precautions-0", true)] }
      = handleCopyJSON { initialState with selectedChecklist := some demoChecklist } :=
  ⟨C6_copy_json_roundtrip.1 initialState rfl,
   C6_copy_json_roundtrip.2.1 _ demoChecklist rfl,
   C6_copy_json_roundtrip.2.2.1 demoChecklist,
   C6_copy_json_roundtrip.2.2.2 _ _ rfl⟩

end Checklist
